import Mathlib

/- Verification development for the time-window resolution engine of webdc3
   (src/wsgi/modules/metadata.py).

   Shallow embedding conventions:
   * datetimes are rationals (seconds since an arbitrary epoch); the
     `datetime.timedelta(seconds = x)` addition becomes rational addition;
   * floats (coordinates, offsets, travel times) are rationals;
   * the external collaborators (inventory cache `ic.getStreamInfo`, the
     travel-time table `ttt.compute`, and `Math.delazi`) are fields of a
     `Model` record: `getStreamInfo` returns `Option StreamInfo` (None for a
     channel unknown in the window), `compute` returns `Option (List Arrival)`
     (`none` models the oracle raising, which the source catches locally),
     `delazi` returns the (delta, azi1, azi2) triple of which the source
     uses component 0;
   * `wsgicomm.WIClientError` (a subclass of `Exception`) raised to the
     caller is modelled by the `Except String` monad; an exception caught
     locally by the source is matched on and turned back into control flow
     exactly where the source catches it. -/

namespace WebDC3

/-- A seismic phase arrival produced by the travel-time oracle:
`tt.phase` and `tt.time` in the source. -/
structure Arrival where
  phase : String
  time : ℚ
deriving DecidableEq

/-- Result of `ic.getStreamInfo`: the dictionary with keys `latitude`,
`longitude`, `elevation`, `size` used by the source. -/
structure StreamInfo where
  latitude : ℚ
  longitude : ℚ
  elevation : ℚ
  size : ℚ
deriving DecidableEq

/-- A parsed event `[lat, lon, depth, time]` (metadata.py lines 400-403). -/
structure Event where
  lat : ℚ
  lon : ℚ
  dep : ℚ
  time : ℚ
deriving DecidableEq

/-- One output line `(start_time, end_time, net, sta, cha, loc, size)`
appended to `result` by both resolvers. -/
structure TWResult where
  start_time : ℚ
  end_time : ℚ
  net : String
  sta : String
  cha : String
  loc : String
  size : ℚ
deriving DecidableEq

/-- The external collaborators of the engine: the inventory cache, the
geodesic distance function and the travel-time table.  `compute = none`
models `ttt.compute` raising an exception. -/
structure Model where
  getStreamInfo : ℚ → ℚ → String → String → String → String → Option StreamInfo
  delazi : ℚ → ℚ → ℚ → ℚ → ℚ × ℚ × ℚ
  compute : ℚ → ℚ → ℚ → ℚ → ℚ → ℚ → Option (List Arrival)

/-- Python `s.startswith(pre)`. -/
def startswith (s pre : String) : Bool :=
  pre.data.isPrefixOf s.data

/-- The P phase family of `__isphase` (metadata.py line 360). -/
def pFamilyNames : List String := ["P", "Pg", "Pb", "Pn", "Pdif", "Pdiff"]

/-- The S phase family of `__isphase` (metadata.py line 364). -/
def sFamilyNames : List String := ["S", "Sg", "Sb", "Sn", "Sdif", "Sdiff"]

/-- Error message raised by `__isphase` for a phase other than P or S. -/
def wrongPhaseMsg : String := "Wrong phase received! Only \"P\" and \"S\" are implemented."

/-- Error message of the dead `else` branch of the startphase loop. -/
def wrongStartMsg : String := "Wrong startphase received! Only \"P\" and \"S\" are implemented."

/-- Error message of the dead `else` branch of the endphase loop. -/
def wrongEndMsg : String := "Wrong endphase received! Only \"P\" and \"S\" are implemented."

/-- Error message raised when the result list exceeds `max_lines`. -/
def tooLargeMsg : String := "maximum request size exceeded"

/-- `__isphase(ttphase, phase)` (metadata.py lines 354-370): membership of a
travel-time phase name in the family of the requested phase; raises
`WIClientError` for a requested phase other than P and S. -/
def isphase (ttphase phase : String) : Except String Bool :=
  if phase = "P" then
    .ok (decide (ttphase ∈ pFamilyNames))
  else if phase = "S" then
    .ok (decide (ttphase ∈ sFamilyNames) || startswith ttphase "SKS")
  else
    .error wrongPhaseMsg

/-- `delta_threshold = 120` (metadata.py line 443). -/
def delta_threshold : ℚ := 120

/-- One of the two `for tt in ttlist` scans of `__timewindows_ev`
(metadata.py lines 452-464 and 466-479), parameterised by the error
message of its dead `else` branch.  It returns `some` of the resolved
time `ev_time + tt.time + offset*60` for the first matching arrival,
`none` when the scan exhausts the list, and `.error` when an exception
is raised inside the loop (to be caught by the enclosing handler). -/
def phaseScan (msg phase : String) (delta off ev_time : ℚ) :
    List Arrival → Except String (Option ℚ)
  | [] => .ok none
  | tt :: rest =>
    if phase = "P" ∧ delta ≥ delta_threshold then
      if startswith tt.phase "PKP" || startswith tt.phase "PKiKP" then
        .ok (some (ev_time + (tt.time + off * 60)))
      else
        phaseScan msg phase delta off ev_time rest
    else if phase = "S" ∨ (phase = "P" ∧ delta < delta_threshold) then
      match isphase tt.phase phase with
      | .error e => .error e
      | .ok true => .ok (some (ev_time + (tt.time + off * 60)))
      | .ok false => phaseScan msg phase delta off ev_time rest
    else
      .error msg

/-- The body of `__timewindows_ev` for one (event, stream) pair once the
stream key is decomposed (metadata.py lines 422-496, up to but excluding
the `max_lines` check): the probe cache lookup at `(ev_time, ev_time)`,
the distance computation (`delta` is component 0 of `Math.delazi`), the
travel-time query (skipping the pair when the oracle raises), the two
phase scans under their shared exception handler (a caught exception
skips the pair), and the final re-lookup at the resolved window.
Returns the `TimeWindowResult` to append, or `none` when the pair is
skipped. -/
def pairWindow (M : Model) (ev : Event) (net sta cha loc : String)
    (sp : String) (so : ℚ) (ep : String) (eo : ℚ) : Option TWResult :=
  match M.getStreamInfo ev.time ev.time net sta cha loc with
  | none => none
  | some si =>
    match M.compute ev.lat ev.lon ev.dep si.latitude si.longitude si.elevation with
    | none => none
    | some ttlist =>
      match phaseScan wrongStartMsg sp (M.delazi ev.lat ev.lon si.latitude si.longitude).1
          so ev.time ttlist with
      | .error _ => none
      | .ok st =>
        match phaseScan wrongEndMsg ep (M.delazi ev.lat ev.lon si.latitude si.longitude).1
            eo ev.time ttlist with
        | .error _ => none
        | .ok et =>
          match st, et with
          | some s, some e =>
            match M.getStreamInfo s e net sta cha loc with
            | some si2 => some ⟨s, e, net, sta, cha, loc, si2.size⟩
            | none => none
          | some _, none => none
          | none, _ => none

/-- Processing of one stream inside the inner loop of `__timewindows_ev`
(metadata.py lines 408-499): arity check on the stream key (fatal), then
`pairWindow`, then append and the `max_lines` check (fatal). -/
def processStream (M : Model) (maxLines : ℕ) (ev : Event)
    (sp : String) (so : ℚ) (ep : String) (eo : ℚ)
    (acc : List TWResult) (nscl : List String) : Except String (List TWResult) :=
  match nscl with
  | [net, sta, cha, loc] =>
    match pairWindow M ev net sta cha loc sp so ep eo with
    | none => .ok acc
    | some r =>
      if maxLines < (acc ++ [r]).length then .error tooLargeMsg else .ok (acc ++ [r])
  | _ => .error "invalid stream"

/-- The inner `for nscl in streams` loop of `__timewindows_ev`. -/
def evStreams (M : Model) (maxLines : ℕ) (ev : Event)
    (sp : String) (so : ℚ) (ep : String) (eo : ℚ) :
    List (List String) → List TWResult → Except String (List TWResult)
  | [], acc => .ok acc
  | nscl :: rest, acc =>
    match processStream M maxLines ev sp so ep eo acc nscl with
    | .error e => .error e
    | .ok acc2 => evStreams M maxLines ev sp so ep eo rest acc2

/-- One iteration of the outer `for ev in events` loop of
`__timewindows_ev` (metadata.py lines 395-406): arity check on the event
(fatal), then the inner loop over the streams. -/
def evEventOne (M : Model) (maxLines : ℕ) (streams : List (List String))
    (sp : String) (so : ℚ) (ep : String) (eo : ℚ)
    (acc : List TWResult) (ev : List ℚ) : Except String (List TWResult) :=
  match ev with
  | [la, lo, de, ti] => evStreams M maxLines ⟨la, lo, de, ti⟩ sp so ep eo streams acc
  | _ => .error "invalid event"

/-- The outer `for ev in events` loop of `__timewindows_ev`. -/
def evEvents (M : Model) (maxLines : ℕ) (streams : List (List String))
    (sp : String) (so : ℚ) (ep : String) (eo : ℚ) :
    List (List ℚ) → List TWResult → Except String (List TWResult)
  | [], acc => .ok acc
  | ev :: rest, acc =>
    match evEventOne M maxLines streams sp so ep eo acc ev with
    | .error e => .error e
    | .ok acc2 => evEvents M maxLines streams sp so ep eo rest acc2

/-- `__timewindows_ev(streams, events, startphase, startoffset, endphase,
endoffset)` (metadata.py lines 373-501). -/
def timewindows_ev (M : Model) (maxLines : ℕ) (streams : List (List String))
    (events : List (List ℚ)) (sp : String) (so : ℚ) (ep : String) (eo : ℚ) :
    Except String (List TWResult) :=
  evEvents M maxLines streams sp so ep eo events []

/-- One iteration of the `for nscl in streams` loop of `__timewindows_tw`
(metadata.py lines 330-351): arity check (fatal), cache lookup over the
caller's window, append on success with the `max_lines` check (fatal);
a channel unknown over the window is skipped. -/
def twStep (M : Model) (maxLines : ℕ) (s e : ℚ)
    (acc : List TWResult) (nscl : List String) : Except String (List TWResult) :=
  match nscl with
  | [net, sta, cha, loc] =>
    match M.getStreamInfo s e net sta cha loc with
    | none => .ok acc
    | some si =>
      if maxLines < (acc ++ [(⟨s, e, net, sta, cha, loc, si.size⟩ : TWResult)]).length then
        .error tooLargeMsg
      else
        .ok (acc ++ [(⟨s, e, net, sta, cha, loc, si.size⟩ : TWResult)])
  | _ => .error "invalid stream"

/-- The `for nscl in streams` loop of `__timewindows_tw`. -/
def twLoop (M : Model) (maxLines : ℕ) (s e : ℚ) :
    List (List String) → List TWResult → Except String (List TWResult)
  | [], acc => .ok acc
  | nscl :: rest, acc =>
    match twStep M maxLines s e acc nscl with
    | .error e0 => .error e0
    | .ok acc2 => twLoop M maxLines s e rest acc2

/-- `__timewindows_tw(streams, start_time, end_time)` (metadata.py lines
327-351). -/
def timewindows_tw (M : Model) (maxLines : ℕ) (streams : List (List String))
    (s e : ℚ) : Except String (List TWResult) :=
  twLoop M maxLines s e streams []

/-- The two computation modes of the `timewindows` endpoint. -/
inductive Mode where
  | tw : Mode
  | ev : Mode
deriving DecidableEq

/-- `tw_params = ('start', 'end')` (metadata.py line 522), as the set of
names it contains (the dispatcher only counts membership in it). -/
def tw_params : Finset String := {"start", "end"}

/-- `ev_params = ('events', 'startphase', 'startoffset', 'endphase',
'endoffset')` (metadata.py line 523). -/
def ev_params : Finset String :=
  {"events", "startphase", "startoffset", "endphase", "endoffset"}

/-- The mode-selection header of `timewindows` (metadata.py lines 519-535)
over the set of supplied parameter names (the keys of the `params` dict):
the `streams` presence check, the two membership counts and the
three-way dispatch. -/
def selectMode (names : Finset String) : Except String Mode :=
  if "streams" ∉ names then .error "missing streams"
  else
    if (names ∩ tw_params).card = tw_params.card ∧ (names ∩ ev_params).card = 0 then
      .ok Mode.tw
    else if (names ∩ ev_params).card = ev_params.card ∧ (names ∩ tw_params).card = 0 then
      .ok Mode.ev
    else
      .error "invalid set of parameters"

/-- The PKP/PKiKP test of the far-distance branch of the scans
(metadata.py lines 454 and 468). -/
def pkpArr (a : Arrival) : Bool :=
  startswith a.phase "PKP" || startswith a.phase "PKiKP"

/-- P-family membership, the `.ok` payload of `isphase _ "P"`. -/
def pArr (a : Arrival) : Bool := decide (a.phase ∈ pFamilyNames)

/-- S-family membership, the `.ok` payload of `isphase _ "S"`. -/
def sArr (a : Arrival) : Bool :=
  decide (a.phase ∈ sFamilyNames) || startswith a.phase "SKS"

/-- The arrival filter that the source scan effectively applies for a
valid requested phase at distance `d`. -/
def srcMatch (phase : String) (d : ℚ) (a : Arrival) : Bool :=
  if phase = "P" then (if d ≥ delta_threshold then pkpArr a else pArr a)
  else if phase = "S" then sArr a
  else false

lemma find?_ext {α : Type} (p q : α → Bool) (h : ∀ a, p a = q a) :
    ∀ l : List α, l.find? p = l.find? q
  | [] => rfl
  | a :: l => by
    by_cases hp : p a = true
    · rw [List.find?_cons_of_pos _ hp, List.find?_cons_of_pos _ ((h a) ▸ hp)]
    · rw [List.find?_cons_of_neg _ hp, List.find?_cons_of_neg _ ((h a) ▸ hp),
        find?_ext p q h l]

lemma phaseScan_pkp (msg : String) (d off t : ℚ) (hd : d ≥ delta_threshold) :
    ∀ l : List Arrival,
      phaseScan msg "P" d off t l
        = .ok ((l.find? pkpArr).map (fun a => t + (a.time + off * 60)))
  | [] => by simp [phaseScan]
  | a :: rest => by
    rw [phaseScan, if_pos ⟨rfl, hd⟩]
    by_cases hm : pkpArr a = true
    · rw [List.find?_cons_of_pos _ hm]
      unfold pkpArr at hm
      rw [if_pos hm]
      rfl
    · rw [List.find?_cons_of_neg _ hm, ← phaseScan_pkp msg d off t hd rest]
      unfold pkpArr at hm
      rw [if_neg hm]

lemma phaseScan_pnear (msg : String) (d off t : ℚ) (hd : ¬ d ≥ delta_threshold) :
    ∀ l : List Arrival,
      phaseScan msg "P" d off t l
        = .ok ((l.find? pArr).map (fun a => t + (a.time + off * 60)))
  | [] => by simp [phaseScan]
  | a :: rest => by
    have h1 : ¬(("P" : String) = "P" ∧ d ≥ delta_threshold) := fun h => hd h.2
    have h2 : ("P" : String) = "S" ∨ (("P" : String) = "P" ∧ d < delta_threshold) :=
      Or.inr ⟨rfl, not_le.mp hd⟩
    have hiso : isphase a.phase "P" = .ok (pArr a) := by
      unfold isphase pArr
      rw [if_pos rfl]
    rw [phaseScan, if_neg h1, if_pos h2, hiso]
    by_cases hm : pArr a = true
    · rw [hm, List.find?_cons_of_pos _ hm]
      rfl
    · have hm2 : pArr a = false := by simpa using hm
      rw [hm2, List.find?_cons_of_neg _ hm]
      exact phaseScan_pnear msg d off t hd rest

lemma phaseScan_s (msg : String) (d off t : ℚ) :
    ∀ l : List Arrival,
      phaseScan msg "S" d off t l
        = .ok ((l.find? sArr).map (fun a => t + (a.time + off * 60)))
  | [] => by simp [phaseScan]
  | a :: rest => by
    have h1 : ¬(("S" : String) = "P" ∧ d ≥ delta_threshold) := by
      rintro ⟨h, -⟩
      exact absurd h (by decide)
    have h2 : ("S" : String) = "S" ∨ (("S" : String) = "P" ∧ d < delta_threshold) :=
      Or.inl rfl
    have hiso : isphase a.phase "S" = .ok (sArr a) := by
      unfold isphase sArr
      rw [if_neg (by decide), if_pos rfl]
    rw [phaseScan, if_neg h1, if_pos h2, hiso]
    by_cases hm : sArr a = true
    · rw [hm, List.find?_cons_of_pos _ hm]
      rfl
    · have hm2 : sArr a = false := by simpa using hm
      rw [hm2, List.find?_cons_of_neg _ hm]
      exact phaseScan_s msg d off t rest

lemma phaseScan_invalid (msg phase : String) (d off t : ℚ)
    (hp : phase ≠ "P") (hs : phase ≠ "S") (a : Arrival) (rest : List Arrival) :
    phaseScan msg phase d off t (a :: rest) = .error msg := by
  have h1 : ¬(phase = "P" ∧ d ≥ delta_threshold) := fun h => hp h.1
  have h2 : ¬(phase = "S" ∨ (phase = "P" ∧ d < delta_threshold)) := by
    rintro (h | h)
    exacts [hs h, hp h.1]
  rw [phaseScan, if_neg h1, if_neg h2]

lemma phaseScan_valid (msg phase : String) (d off t : ℚ)
    (hp : phase = "P" ∨ phase = "S") (l : List Arrival) :
    phaseScan msg phase d off t l
      = .ok ((l.find? (srcMatch phase d)).map (fun a => t + (a.time + off * 60))) := by
  rcases hp with h | h <;> subst h
  · by_cases hd : d ≥ delta_threshold
    · rw [phaseScan_pkp msg d off t hd l]
      rw [find?_ext (srcMatch "P" d) pkpArr (fun a => by simp [srcMatch, hd]) l]
    · rw [phaseScan_pnear msg d off t hd l]
      rw [find?_ext (srcMatch "P" d) pArr (fun a => by simp [srcMatch, hd]) l]
  · rw [phaseScan_s msg d off t l]
    rw [find?_ext (srcMatch "S" d) sArr (fun a => by simp [srcMatch]) l]

lemma phaseScan_ok_some (msg phase : String) (d off t x : ℚ) (l : List Arrival)
    (h : phaseScan msg phase d off t l = .ok (some x)) :
    phase = "P" ∨ phase = "S" := by
  by_contra hc
  push_neg at hc
  match l with
  | [] => simp [phaseScan] at h
  | a :: rest =>
    rw [phaseScan_invalid msg phase d off t hc.1 hc.2 a rest] at h
    exact absurd h (by simp)

/-- The time the source's resolution assigns to one of the two phases of
a pair, as an `Option`: `none` when the pair's probe lookup fails, the
oracle raises, the scan raises (the exception is caught and the pair
skipped) or the scan finds no matching arrival. -/
def resolvedTime (M : Model) (ev : Event) (net sta cha loc : String)
    (msg phase : String) (off : ℚ) : Option ℚ :=
  match M.getStreamInfo ev.time ev.time net sta cha loc with
  | none => none
  | some si =>
    match M.compute ev.lat ev.lon ev.dep si.latitude si.longitude si.elevation with
    | none => none
    | some ttlist =>
      match phaseScan msg phase (M.delazi ev.lat ev.lon si.latitude si.longitude).1
          off ev.time ttlist with
      | .error _ => none
      | .ok st => st

lemma pairWindow_eq_some (M : Model) (ev : Event) (net sta cha loc : String)
    (sp : String) (so : ℚ) (ep : String) (eo : ℚ) (r : TWResult) :
    pairWindow M ev net sta cha loc sp so ep eo = some r ↔
      ∃ si, M.getStreamInfo ev.time ev.time net sta cha loc = some si ∧
      ∃ ttl, M.compute ev.lat ev.lon ev.dep si.latitude si.longitude si.elevation
               = some ttl ∧
      ∃ s, phaseScan wrongStartMsg sp (M.delazi ev.lat ev.lon si.latitude si.longitude).1
             so ev.time ttl = .ok (some s) ∧
      ∃ e, phaseScan wrongEndMsg ep (M.delazi ev.lat ev.lon si.latitude si.longitude).1
             eo ev.time ttl = .ok (some e) ∧
      ∃ si2, M.getStreamInfo s e net sta cha loc = some si2 ∧
      r = ⟨s, e, net, sta, cha, loc, si2.size⟩ := by
  constructor
  · intro h
    unfold pairWindow at h
    cases hsi : M.getStreamInfo ev.time ev.time net sta cha loc with
    | none => simp [hsi] at h
    | some si =>
      simp only [hsi] at h
      cases httl : M.compute ev.lat ev.lon ev.dep si.latitude si.longitude si.elevation with
      | none => simp [httl] at h
      | some ttl =>
        simp only [httl] at h
        cases hs : phaseScan wrongStartMsg sp
            (M.delazi ev.lat ev.lon si.latitude si.longitude).1 so ev.time ttl with
        | error e0 => simp [hs] at h
        | ok st =>
          simp only [hs] at h
          cases he : phaseScan wrongEndMsg ep
              (M.delazi ev.lat ev.lon si.latitude si.longitude).1 eo ev.time ttl with
          | error e0 =>
            simp only [he] at h
            cases st <;> simp at h
          | ok et =>
            simp only [he] at h
            cases st with
            | none => simp at h
            | some s =>
              cases et with
              | none => simp at h
              | some e =>
                cases hsi2 : M.getStreamInfo s e net sta cha loc with
                | none => simp [hsi2] at h
                | some si2 =>
                  simp only [hsi2] at h
                  exact ⟨si, rfl, ttl, httl, s, hs, e, he, si2, hsi2,
                    (Option.some_inj.mp h).symm⟩
  · rintro ⟨si, hsi, ttl, httl, s, hs, e, he, si2, hsi2, hr⟩
    unfold pairWindow
    simp only [hsi, httl, hs, he, hsi2, hr]

/-- The phase-selection rule exactly as the claim words it: for P with
distance below 120 degrees the named P family, for S at any distance the
named S family or an SKS-prefixed name, for P at 120 degrees or more a
PKP- or PKiKP-prefixed name.  Stated from the claim for comparison with
the source scan. -/
def specPhaseRule (phase : String) (delta : ℚ) (a : Arrival) : Bool :=
  if phase = "P" then
    if delta ≥ 120 then startswith a.phase "PKP" || startswith a.phase "PKiKP"
    else decide (a.phase ∈ ["P", "Pg", "Pb", "Pn", "Pdif", "Pdiff"])
  else if phase = "S" then
    decide (a.phase ∈ ["S", "Sg", "Sb", "Sn", "Sdif", "Sdiff"]) || startswith a.phase "SKS"
  else false

lemma specPhaseRule_eq_srcMatch (phase : String) (d : ℚ)
    (hp : phase = "P" ∨ phase = "S") (a : Arrival) :
    specPhaseRule phase d a = srcMatch phase d a := by
  rcases hp with h | h <;> subst h
  · by_cases hd : d ≥ (120 : ℚ)
    · simp [specPhaseRule, srcMatch, delta_threshold, hd, pkpArr]
    · simp [specPhaseRule, srcMatch, delta_threshold, hd, pArr, pFamilyNames]
  · simp [specPhaseRule, srcMatch, sArr, sFamilyNames]

/-- C1: in event-relative mode, whenever a window is emitted for an
(event, channel) pair, the resolved start and end times each equal the
event origin time plus the travel time of the first arrival of the
oracle's sequence matching the claimed phase rule, plus offset*60
seconds, start and end being resolved independently by this rule. -/
theorem C1_resolved_window (M : Model) (ev : Event) (net sta cha loc : String)
    (sp : String) (so : ℚ) (ep : String) (eo : ℚ) (r : TWResult)
    (h : pairWindow M ev net sta cha loc sp so ep eo = some r) :
    ∃ si, M.getStreamInfo ev.time ev.time net sta cha loc = some si ∧
    ∃ ttl, M.compute ev.lat ev.lon ev.dep si.latitude si.longitude si.elevation
             = some ttl ∧
    ∃ a, ttl.find? (specPhaseRule sp (M.delazi ev.lat ev.lon si.latitude si.longitude).1)
           = some a ∧
    ∃ b, ttl.find? (specPhaseRule ep (M.delazi ev.lat ev.lon si.latitude si.longitude).1)
           = some b ∧
      r.start_time = ev.time + (a.time + so * 60) ∧
      r.end_time = ev.time + (b.time + eo * 60) := by
  obtain ⟨si, hsi, ttl, httl, s, hs, e, he, si2, hsi2, hr⟩ :=
    (pairWindow_eq_some M ev net sta cha loc sp so ep eo r).mp h
  have hspv := phaseScan_ok_some _ sp _ so ev.time s ttl hs
  have hepv := phaseScan_ok_some _ ep _ eo ev.time e ttl he
  rw [phaseScan_valid _ sp _ so ev.time hspv ttl] at hs
  rw [phaseScan_valid _ ep _ eo ev.time hepv ttl] at he
  obtain ⟨a, ha, has⟩ := Option.map_eq_some'.mp (Except.ok.inj hs)
  obtain ⟨b, hb, hbs⟩ := Option.map_eq_some'.mp (Except.ok.inj he)
  refine ⟨si, hsi, ttl, httl, a, ?_, b, ?_, ?_, ?_⟩
  · rw [find?_ext _ _
      (specPhaseRule_eq_srcMatch sp (M.delazi ev.lat ev.lon si.latitude si.longitude).1 hspv) ttl]
    exact ha
  · rw [find?_ext _ _
      (specPhaseRule_eq_srcMatch ep (M.delazi ev.lat ev.lon si.latitude si.longitude).1 hepv) ttl]
    exact hb
  · rw [hr]
    exact has.symm
  · rw [hr]
    exact hbs.symm

/-- A constant external-collaborator model for concrete evaluations. -/
def constModel (si : Option StreamInfo) (d : ℚ) (tt : Option (List Arrival)) : Model where
  getStreamInfo := fun _ _ _ _ _ _ => si
  delazi := fun _ _ _ _ => (d, 0, 0)
  compute := fun _ _ _ _ _ _ => tt

/-- Concrete cache entry used by the evaluation models. -/
def si1 : StreamInfo := ⟨0, 1, 0, 7⟩

/-- Scenario-1 model: channel known, distance 1 degree, arrivals P at 20 s
and S at 35 s after origin. -/
def M1 : Model := constModel (some si1) 1 (some [⟨"P", 20⟩, ⟨"S", 35⟩])

/-- Scenario-1 event: origin time 100. -/
def ev1 : Event := ⟨0, 0, 10, 100⟩

theorem C1_resolved_window_witness :
    ∃ si, M1.getStreamInfo ev1.time ev1.time "GE" "APE" "BHZ" "" = some si ∧
    ∃ ttl, M1.compute ev1.lat ev1.lon ev1.dep si.latitude si.longitude si.elevation
             = some ttl ∧
    ∃ a, ttl.find? (specPhaseRule "P" (M1.delazi ev1.lat ev1.lon si.latitude si.longitude).1)
           = some a ∧
    ∃ b, ttl.find? (specPhaseRule "S" (M1.delazi ev1.lat ev1.lon si.latitude si.longitude).1)
           = some b ∧
      (⟨60, 255, "GE", "APE", "BHZ", "", 7⟩ : TWResult).start_time
        = ev1.time + (a.time + (-1) * 60) ∧
      (⟨60, 255, "GE", "APE", "BHZ", "", 7⟩ : TWResult).end_time
        = ev1.time + (b.time + 2 * 60) :=
  C1_resolved_window M1 ev1 "GE" "APE" "BHZ" "" "P" (-1) "S" 2
    ⟨60, 255, "GE", "APE", "BHZ", "", 7⟩ (by
    norm_num [pairWindow, M1, constModel, ev1, si1, phaseScan, isphase, startswith,
      pFamilyNames, sFamilyNames, delta_threshold, List.isPrefixOf] <;> rfl)

/-- C4: with requested phase P at distance exactly 120 degrees the scan
takes the PKP/PKiKP branch: it selects the first arrival whose name
starts with PKP or PKiKP, ignoring P-family entries, so the threshold
test is at-least-120, not strictly-greater. -/
theorem C4_delta_boundary (msg : String) (off t : ℚ) (l : List Arrival) :
    phaseScan msg "P" 120 off t l
      = .ok ((l.find? (fun a => startswith a.phase "PKP" || startswith a.phase "PKiKP")).map
          (fun a => t + (a.time + off * 60))) := by
  rw [phaseScan_pkp msg 120 off t (by norm_num [delta_threshold]) l]
  rw [find?_ext pkpArr
    (fun a => startswith a.phase "PKP" || startswith a.phase "PKiKP") (fun a => rfl) l]

/-- C10: for an emitted window computed with startphase equal to
endphase, the two independent scans select the same first matching
arrival, so the window length is exactly (endoffset - startoffset) * 60
seconds. -/
theorem C10_same_phase (M : Model) (ev : Event) (net sta cha loc : String)
    (ph : String) (so eo : ℚ) (r : TWResult)
    (h : pairWindow M ev net sta cha loc ph so ph eo = some r) :
    r.end_time - r.start_time = (eo - so) * 60 := by
  obtain ⟨si, hsi, ttl, httl, s, hs, e, he, si2, hsi2, hr⟩ :=
    (pairWindow_eq_some M ev net sta cha loc ph so ph eo r).mp h
  have hv := phaseScan_ok_some _ ph _ so ev.time s ttl hs
  rw [phaseScan_valid _ ph _ so ev.time hv ttl] at hs
  rw [phaseScan_valid _ ph _ eo ev.time hv ttl] at he
  obtain ⟨a, ha, has⟩ := Option.map_eq_some'.mp (Except.ok.inj hs)
  obtain ⟨b, hb, hbs⟩ := Option.map_eq_some'.mp (Except.ok.inj he)
  rw [ha] at hb
  cases Option.some_inj.mp hb
  subst hr
  show e - s = (eo - so) * 60
  rw [← has, ← hbs]
  ring

theorem C10_same_phase_witness :
    (⟨60, 240, "GE", "APE", "BHZ", "", 7⟩ : TWResult).end_time
      - (⟨60, 240, "GE", "APE", "BHZ", "", 7⟩ : TWResult).start_time
      = (2 - (-1)) * 60 :=
  C10_same_phase M1 ev1 "GE" "APE" "BHZ" "" "P" (-1) 2
    ⟨60, 240, "GE", "APE", "BHZ", "", 7⟩ (by
    norm_num [pairWindow, M1, constModel, ev1, si1, phaseScan, isphase, startswith,
      pFamilyNames, sFamilyNames, delta_threshold, List.isPrefixOf] <;> rfl)

lemma resolvedTime_eq_some (M : Model) (ev : Event) (net sta cha loc : String)
    (msg phase : String) (off x : ℚ) :
    resolvedTime M ev net sta cha loc msg phase off = some x ↔
      ∃ si, M.getStreamInfo ev.time ev.time net sta cha loc = some si ∧
      ∃ ttl, M.compute ev.lat ev.lon ev.dep si.latitude si.longitude si.elevation
               = some ttl ∧
      phaseScan msg phase (M.delazi ev.lat ev.lon si.latitude si.longitude).1
        off ev.time ttl = .ok (some x) := by
  constructor
  · intro h
    unfold resolvedTime at h
    cases hsi : M.getStreamInfo ev.time ev.time net sta cha loc with
    | none => simp [hsi] at h
    | some si =>
      simp only [hsi] at h
      cases httl : M.compute ev.lat ev.lon ev.dep si.latitude si.longitude si.elevation with
      | none => simp [httl] at h
      | some ttl =>
        simp only [httl] at h
        cases hs : phaseScan msg phase
            (M.delazi ev.lat ev.lon si.latitude si.longitude).1 off ev.time ttl with
        | error e0 => simp [hs] at h
        | ok st =>
          simp only [hs] at h
          exact ⟨si, rfl, ttl, httl, by rw [hs, h]⟩
  · rintro ⟨si, hsi, ttl, httl, hs⟩
    unfold resolvedTime
    simp only [hsi, httl, hs]

/-- C7: a TimeWindowResult is produced for an (event, channel) pair iff
both the start and the end anchor resolve to non-null times and the
cache lookup re-done at the resolved (start, end) window is non-null;
and a pair whose probe lookup at the degenerate (event_time, event_time)
window returns null is skipped without any error. -/
theorem C7_emit_iff (M : Model) (maxLines : ℕ) (ev : Event)
    (sp : String) (so : ℚ) (ep : String) (eo : ℚ)
    (net sta cha loc : String) (acc : List TWResult) (r : TWResult) :
    (M.getStreamInfo ev.time ev.time net sta cha loc = none →
      processStream M maxLines ev sp so ep eo acc [net, sta, cha, loc] = .ok acc) ∧
    (pairWindow M ev net sta cha loc sp so ep eo = some r ↔
      ∃ s, resolvedTime M ev net sta cha loc wrongStartMsg sp so = some s ∧
      ∃ e, resolvedTime M ev net sta cha loc wrongEndMsg ep eo = some e ∧
      ∃ si2, M.getStreamInfo s e net sta cha loc = some si2 ∧
        r = ⟨s, e, net, sta, cha, loc, si2.size⟩) := by
  constructor
  · intro h
    unfold processStream pairWindow
    simp only [h]
  · rw [pairWindow_eq_some]
    constructor
    · rintro ⟨si, hsi, ttl, httl, s, hs, e, he, si2, hsi2, hr⟩
      exact ⟨s, (resolvedTime_eq_some M ev net sta cha loc wrongStartMsg sp so s).mpr
          ⟨si, hsi, ttl, httl, hs⟩,
        e, (resolvedTime_eq_some M ev net sta cha loc wrongEndMsg ep eo e).mpr
          ⟨si, hsi, ttl, httl, he⟩,
        si2, hsi2, hr⟩
    · rintro ⟨s, hrs, e, hre, si2, hsi2, hr⟩
      obtain ⟨si, hsi, ttl, httl, hs⟩ :=
        (resolvedTime_eq_some M ev net sta cha loc wrongStartMsg sp so s).mp hrs
      obtain ⟨si', hsi', ttl', httl', he⟩ :=
        (resolvedTime_eq_some M ev net sta cha loc wrongEndMsg ep eo e).mp hre
      rw [hsi] at hsi'
      cases Option.some_inj.mp hsi'
      rw [httl] at httl'
      cases Option.some_inj.mp httl'
      exact ⟨si, hsi, ttl, httl, s, hs, e, he, si2, hsi2, hr⟩

/-- Probe-failure model: the channel is unknown to the cache. -/
def M7 : Model := constModel none 1 none

theorem C7_emit_iff_witness :
    processStream M7 5 ev1 "P" 0 "S" 0 [] ["N", "S", "C", "L"] = .ok [] :=
  (C7_emit_iff M7 5 ev1 "P" 0 "S" 0 "N" "S" "C" "L" [] ⟨0, 0, "N", "S", "C", "L", 0⟩).1 rfl

/-- C6: if the travel-time oracle raises for an (event, channel) pair,
the error is recovered locally: that pair alone is skipped and the loop
continues with the remaining pairs exactly as if the pair were absent;
no exception escapes. -/
theorem C6_oracle_skip (M : Model) (maxLines : ℕ) (ev : Event)
    (sp : String) (so : ℚ) (ep : String) (eo : ℚ)
    (net sta cha loc : String) (si : StreamInfo) (rest : List (List String))
    (acc : List TWResult)
    (hsi : M.getStreamInfo ev.time ev.time net sta cha loc = some si)
    (hfail : M.compute ev.lat ev.lon ev.dep si.latitude si.longitude si.elevation = none) :
    evStreams M maxLines ev sp so ep eo ([net, sta, cha, loc] :: rest) acc
      = evStreams M maxLines ev sp so ep eo rest acc := by
  have hpw : pairWindow M ev net sta cha loc sp so ep eo = none := by
    unfold pairWindow
    simp only [hsi, hfail]
  rw [evStreams]
  simp only [processStream, hpw]

/-- Oracle-failure model: the channel is known but `ttt.compute` raises. -/
def M6 : Model := constModel (some si1) 1 none

theorem C6_oracle_skip_witness :
    evStreams M6 10 ev1 "P" 0 "S" 0 [["A", "B", "C", "D"], ["E", "F", "G", "H"]] []
      = evStreams M6 10 ev1 "P" 0 "S" 0 [["E", "F", "G", "H"]] [] :=
  C6_oracle_skip M6 10 ev1 "P" 0 "S" 0 "A" "B" "C" "D" si1 [["E", "F", "G", "H"]] []
    rfl rfl

/-- C2 at its failing input: a startphase that is neither P nor S does
not abort the request.  The `WIClientError` raised inside the scan is
caught by the per-pair exception handler (metadata.py line 481), the
pair is skipped, and the request succeeds with an empty result list
instead of failing with a Malformed-Input error naming the phase. -/
theorem C2_invalid_phase_not_fatal :
    timewindows_ev M1 10000 [["GE", "APE", "BHZ", ""]] [[0, 0, 10, 100]] "X" (-1) "P" 2
      = .ok [] := by
  rfl

lemma processStream_length (M : Model) (maxLines : ℕ) (ev : Event)
    (sp : String) (so : ℚ) (ep : String) (eo : ℚ)
    (acc : List TWResult) (nscl : List String) (acc2 : List TWResult)
    (hacc : acc.length ≤ maxLines)
    (h : processStream M maxLines ev sp so ep eo acc nscl = .ok acc2) :
    acc2.length ≤ maxLines := by
  unfold processStream at h
  split at h
  · rename_i net sta cha loc
    cases hpw : pairWindow M ev net sta cha loc sp so ep eo with
    | none =>
      simp only [hpw] at h
      exact (Except.ok.inj h) ▸ hacc
    | some r =>
      simp only [hpw] at h
      by_cases hlt : maxLines < (acc ++ [r]).length
      · rw [if_pos hlt] at h
        exact absurd h (by simp)
      · rw [if_neg hlt] at h
        exact (Except.ok.inj h) ▸ (not_lt.mp hlt)
  · exact absurd h (by simp)

lemma evStreams_length (M : Model) (maxLines : ℕ) (ev : Event)
    (sp : String) (so : ℚ) (ep : String) (eo : ℚ) :
    ∀ (streams : List (List String)) (acc res : List TWResult),
      acc.length ≤ maxLines →
      evStreams M maxLines ev sp so ep eo streams acc = .ok res →
      res.length ≤ maxLines
  | [], acc, res, hacc, h => by
    rw [evStreams] at h
    exact (Except.ok.inj h) ▸ hacc
  | nscl :: rest, acc, res, hacc, h => by
    rw [evStreams] at h
    cases hps : processStream M maxLines ev sp so ep eo acc nscl with
    | error e0 =>
      simp [hps] at h
    | ok acc2 =>
      simp only [hps] at h
      exact evStreams_length M maxLines ev sp so ep eo rest acc2 res
        (processStream_length M maxLines ev sp so ep eo acc nscl acc2 hacc hps) h

lemma evEventOne_length (M : Model) (maxLines : ℕ) (streams : List (List String))
    (sp : String) (so : ℚ) (ep : String) (eo : ℚ)
    (acc : List TWResult) (ev : List ℚ) (acc2 : List TWResult)
    (hacc : acc.length ≤ maxLines)
    (h : evEventOne M maxLines streams sp so ep eo acc ev = .ok acc2) :
    acc2.length ≤ maxLines := by
  unfold evEventOne at h
  split at h
  · rename_i la lo de ti
    exact evStreams_length M maxLines ⟨la, lo, de, ti⟩ sp so ep eo streams acc acc2 hacc h
  · exact absurd h (by simp)

lemma evEvents_length (M : Model) (maxLines : ℕ) (streams : List (List String))
    (sp : String) (so : ℚ) (ep : String) (eo : ℚ) :
    ∀ (events : List (List ℚ)) (acc res : List TWResult),
      acc.length ≤ maxLines →
      evEvents M maxLines streams sp so ep eo events acc = .ok res →
      res.length ≤ maxLines
  | [], acc, res, hacc, h => by
    rw [evEvents] at h
    exact (Except.ok.inj h) ▸ hacc
  | ev :: rest, acc, res, hacc, h => by
    rw [evEvents] at h
    cases he1 : evEventOne M maxLines streams sp so ep eo acc ev with
    | error e0 =>
      simp [he1] at h
    | ok acc2 =>
      simp only [he1] at h
      exact evEvents_length M maxLines streams sp so ep eo rest acc2 res
        (evEventOne_length M maxLines streams sp so ep eo acc ev acc2 hacc he1) h

lemma twStep_length (M : Model) (maxLines : ℕ) (s e : ℚ)
    (acc : List TWResult) (nscl : List String) (acc2 : List TWResult)
    (hacc : acc.length ≤ maxLines)
    (h : twStep M maxLines s e acc nscl = .ok acc2) :
    acc2.length ≤ maxLines := by
  unfold twStep at h
  split at h
  · rename_i net sta cha loc
    cases hsi : M.getStreamInfo s e net sta cha loc with
    | none =>
      simp only [hsi] at h
      exact (Except.ok.inj h) ▸ hacc
    | some si =>
      simp only [hsi] at h
      by_cases hlt : maxLines < (acc ++ [(⟨s, e, net, sta, cha, loc, si.size⟩ : TWResult)]).length
      · rw [if_pos hlt] at h
        exact absurd h (by simp)
      · rw [if_neg hlt] at h
        exact (Except.ok.inj h) ▸ (not_lt.mp hlt)
  · exact absurd h (by simp)

lemma twLoop_length (M : Model) (maxLines : ℕ) (s e : ℚ) :
    ∀ (streams : List (List String)) (acc res : List TWResult),
      acc.length ≤ maxLines →
      twLoop M maxLines s e streams acc = .ok res →
      res.length ≤ maxLines
  | [], acc, res, hacc, h => by
    rw [twLoop] at h
    exact (Except.ok.inj h) ▸ hacc
  | nscl :: rest, acc, res, hacc, h => by
    rw [twLoop] at h
    cases hts : twStep M maxLines s e acc nscl with
    | error e0 =>
      simp [hts] at h
    | ok acc2 =>
      simp only [hts] at h
      exact twLoop_length M maxLines s e rest acc2 res
        (twStep_length M maxLines s e acc nscl acc2 hacc hts) h

/-- C3: the result-size cap is all-or-nothing in both modes: a request
that succeeds never returns more than max_lines results (in particular
with max_lines = 0 no request emitting a result can succeed), and the
moment the (N+1)-th result is appended with max_lines = N the
computation aborts with the Request-Too-Large error, so no truncated
list is ever returned. -/
theorem C3_size_cap (M : Model) (maxLines : ℕ) (streams : List (List String))
    (events : List (List ℚ)) (s e : ℚ) (sp : String) (so : ℚ) (ep : String) (eo : ℚ) :
    (∀ res, timewindows_tw M maxLines streams s e = .ok res → res.length ≤ maxLines) ∧
    (∀ res, timewindows_ev M maxLines streams events sp so ep eo = .ok res →
      res.length ≤ maxLines) ∧
    (∀ (ev : Event) (acc : List TWResult) (net sta cha loc : String) (r : TWResult),
      pairWindow M ev net sta cha loc sp so ep eo = some r →
      maxLines < acc.length + 1 →
      processStream M maxLines ev sp so ep eo acc [net, sta, cha, loc]
        = .error tooLargeMsg) ∧
    (∀ (acc : List TWResult) (net sta cha loc : String) (si : StreamInfo)
       (rest : List (List String)),
      M.getStreamInfo s e net sta cha loc = some si →
      maxLines < acc.length + 1 →
      twLoop M maxLines s e ([net, sta, cha, loc] :: rest) acc = .error tooLargeMsg) := by
  refine ⟨?_, ?_, ?_, ?_⟩
  · intro res h
    exact twLoop_length M maxLines s e streams [] res (by simp) h
  · intro res h
    exact evEvents_length M maxLines streams sp so ep eo events [] res (by simp) h
  · intro ev acc net sta cha loc r hpw hlt
    unfold processStream
    simp only [hpw]
    rw [if_pos (by simpa using hlt)]
  · intro acc net sta cha loc si rest hsi hlt
    have hstep : twStep M maxLines s e acc [net, sta, cha, loc] = .error tooLargeMsg := by
      unfold twStep
      simp only [hsi]
      rw [if_pos (by simpa using hlt)]
    rw [twLoop]
    simp only [hstep]

theorem C3_size_cap_witness :
    processStream M1 0 ev1 "P" (-1) "S" 2 [] ["GE", "APE", "BHZ", ""]
      = .error tooLargeMsg :=
  (C3_size_cap M1 0 [] [] 0 0 "P" (-1) "S" 2).2.2.1 ev1 [] "GE" "APE" "BHZ" ""
    ⟨60, 255, "GE", "APE", "BHZ", "", 7⟩
    (by
      norm_num [pairWindow, M1, constModel, ev1, si1, phaseScan, isphase, startswith,
        pFamilyNames, sFamilyNames, delta_threshold, List.isPrefixOf] <;> rfl)
    (by norm_num)

/-- The output line of explicit mode for one well-formed stream key whose
cache lookup succeeds (the default values are never used under the
hypotheses of the theorems below). -/
def twEntry (M : Model) (s e : ℚ) (nscl : List String) : TWResult :=
  match nscl with
  | [net, sta, cha, loc] =>
    match M.getStreamInfo s e net sta cha loc with
    | some si => ⟨s, e, net, sta, cha, loc, si.size⟩
    | none => ⟨s, e, net, sta, cha, loc, 0⟩
  | _ => ⟨s, e, "", "", "", "", 0⟩

lemma twLoop_all (M : Model) (maxLines : ℕ) (s e : ℚ) :
    ∀ (streams : List (List String)) (acc : List TWResult),
      (∀ nscl ∈ streams, ∃ net sta cha loc, nscl = [net, sta, cha, loc] ∧
        (M.getStreamInfo s e net sta cha loc).isSome) →
      acc.length + streams.length ≤ maxLines →
      twLoop M maxLines s e streams acc = .ok (acc ++ streams.map (twEntry M s e))
  | [], acc, hwf, hlen => by
    rw [twLoop]
    simp
  | nscl :: rest, acc, hwf, hlen => by
    obtain ⟨net, sta, cha, loc, hshape, hsome⟩ := hwf nscl (List.mem_cons_self nscl rest)
    subst hshape
    obtain ⟨si, hsi⟩ := Option.isSome_iff_exists.mp hsome
    have hstep : twStep M maxLines s e acc [net, sta, cha, loc]
        = .ok (acc ++ [(⟨s, e, net, sta, cha, loc, si.size⟩ : TWResult)]) := by
      unfold twStep
      simp only [hsi]
      rw [if_neg (by simp at hlen ⊢; omega)]
    rw [twLoop]
    simp only [hstep]
    have ih := twLoop_all M maxLines s e rest
      (acc ++ [(⟨s, e, net, sta, cha, loc, si.size⟩ : TWResult)])
      (fun x hx => hwf x (List.mem_cons_of_mem _ hx)) (by simp at hlen ⊢; omega)
    rw [ih]
    simp [twEntry, hsi]

/-- C8 amended: in explicit mode, for every duplicate-free input list in
which every key has arity 4 and a non-null cache entry over the caller's
(start, end) window, and whose length does not exceed max_lines, the
output has exactly one TimeWindowResult per input channel, in input
order, each carrying the caller-supplied start and end times
unchanged. -/
theorem C8_explicit_mode (M : Model) (maxLines : ℕ) (streams : List (List String))
    (s e : ℚ)
    (hnd : streams.Nodup)
    (hwf : ∀ nscl ∈ streams, ∃ net sta cha loc, nscl = [net, sta, cha, loc] ∧
      (M.getStreamInfo s e net sta cha loc).isSome)
    (hlen : streams.length ≤ maxLines) :
    timewindows_tw M maxLines streams s e = .ok (streams.map (twEntry M s e)) ∧
    (streams.map (twEntry M s e)).length = streams.length ∧
    ∀ r ∈ streams.map (twEntry M s e), r.start_time = s ∧ r.end_time = e := by
  refine ⟨?_, by simp, ?_⟩
  · have h := twLoop_all M maxLines s e streams [] hwf (by simpa using hlen)
    simpa [timewindows_tw] using h
  · intro r hr
    obtain ⟨nscl, hmem, hval⟩ := List.mem_map.mp hr
    obtain ⟨net, sta, cha, loc, hshape, hsome⟩ := hwf nscl hmem
    subst hshape
    obtain ⟨si, hsi⟩ := Option.isSome_iff_exists.mp hsome
    rw [← hval]
    simp [twEntry, hsi]

theorem C8_explicit_mode_witness :
    timewindows_tw M1 2 [["GE", "APE", "BHZ", ""]] 0 1
      = .ok ([["GE", "APE", "BHZ", ""]].map (twEntry M1 0 1)) :=
  (C8_explicit_mode M1 2 [["GE", "APE", "BHZ", ""]] 0 1 (by simp)
    (by
      intro nscl h
      rw [List.mem_singleton] at h
      subst h
      exact ⟨"GE", "APE", "BHZ", "", rfl, rfl⟩)
    (by norm_num)).1

/-- C8 counterexample: a duplicate-free input whose single well-formed
channel exists in the cache, processed with max_lines = 0: the request
fails with Request-Too-Large and returns no output list at all, so the
claim's unconditional "one result per input channel" fails. -/
theorem C8_counterexample :
    timewindows_tw M1 0 [["GE", "APE", "BHZ", ""]] 0 1 = Except.error tooLargeMsg ∧
    ¬ ∃ res, timewindows_tw M1 0 [["GE", "APE", "BHZ", ""]] 0 1 = Except.ok res := by
  have hbase : timewindows_tw M1 0 [["GE", "APE", "BHZ", ""]] 0 1
      = Except.error tooLargeMsg := rfl
  refine ⟨hbase, ?_⟩
  rintro ⟨res, h⟩
  rw [hbase] at h
  exact Except.noConfusion h

lemma card_inter_eq_card_right {s t : Finset String} :
    (s ∩ t).card = t.card ↔ t ⊆ s := by
  constructor
  · intro h
    have hsub : s ∩ t ⊆ t := Finset.inter_subset_right
    have heq : s ∩ t = t := Finset.eq_of_subset_of_card_le hsub (le_of_eq h.symm)
    intro x hx
    have hx2 : x ∈ s ∩ t := heq.symm ▸ hx
    exact (Finset.mem_inter.mp hx2).1
  · intro h
    rw [Finset.inter_eq_right.mpr h]

lemma card_inter_eq_zero {s t : Finset String} :
    (s ∩ t).card = 0 ↔ ∀ x ∈ t, x ∉ s := by
  rw [Finset.card_eq_zero, Finset.eq_empty_iff_forall_not_mem]
  constructor
  · intro h x hxt hxs
    exact h x (Finset.mem_inter.mpr ⟨hxs, hxt⟩)
  · intro h x hx
    obtain ⟨hxs, hxt⟩ := Finset.mem_inter.mp hx
    exact h x hxt hxs

/-- C9: every call whose supplied parameter names do not include streams
fails with the "missing streams" Malformed-Input error before mode
selection, regardless of which other parameters are supplied. -/
theorem C9_missing_streams (names : Finset String) (h : "streams" ∉ names) :
    selectMode names = .error "missing streams" := by
  unfold selectMode
  rw [if_pos h]

theorem C9_missing_streams_witness :
    selectMode {"start", "end"} = .error "missing streams" :=
  C9_missing_streams {"start", "end"} (by decide)

/-- C5 counterexample: with exactly start and end supplied (and none of
the five event parameters), the dispatcher selects no mode and does not
raise "invalid set of parameters": the claim's if-and-only-if fails
because the request aborts earlier with "missing streams". -/
theorem C5_counterexample :
    selectMode {"start", "end"} ≠ Except.ok Mode.tw ∧
    selectMode {"start", "end"} ≠ Except.error "invalid set of parameters" := by
  have hbase : selectMode {"start", "end"} = Except.error "missing streams" := by
    unfold selectMode
    rw [if_pos (by decide)]
  constructor
  · intro h
    rw [hbase] at h
    exact Except.noConfusion h
  · intro h
    rw [hbase] at h
    have : "missing streams" = "invalid set of parameters" := Except.error.inj h
    exact absurd this (by decide)

/-- C5 amended: provided the streams parameter is supplied, the
dispatcher selects explicit mode iff start and end are both supplied and
none of the five event parameters is, selects event-relative mode iff
all five event parameters are supplied and neither start nor end, and
fails with the Malformed-Input error "invalid set of parameters" on
every other combination; without streams the request fails earlier with
"missing streams". -/
theorem C5_dispatcher (names : Finset String) (hs : "streams" ∈ names) :
    (selectMode names = .ok Mode.tw ↔
      ("start" ∈ names ∧ "end" ∈ names ∧ ∀ p ∈ ev_params, p ∉ names)) ∧
    (selectMode names = .ok Mode.ev ↔
      ((∀ p ∈ ev_params, p ∈ names) ∧ "start" ∉ names ∧ "end" ∉ names)) ∧
    (¬("start" ∈ names ∧ "end" ∈ names ∧ ∀ p ∈ ev_params, p ∉ names) →
     ¬((∀ p ∈ ev_params, p ∈ names) ∧ "start" ∉ names ∧ "end" ∉ names) →
      selectMode names = .error "invalid set of parameters") := by
  have htw2 : ((names ∩ tw_params).card = tw_params.card ↔
      ("start" ∈ names ∧ "end" ∈ names)) := by
    rw [card_inter_eq_card_right]
    simp [tw_params, Finset.insert_subset_iff]
  have htw0 : ((names ∩ tw_params).card = 0 ↔
      ("start" ∉ names ∧ "end" ∉ names)) := by
    rw [card_inter_eq_zero]
    simp [tw_params]
  have hev5 : ((names ∩ ev_params).card = ev_params.card ↔
      (∀ p ∈ ev_params, p ∈ names)) := by
    rw [card_inter_eq_card_right]
    exact Finset.subset_iff
  have hev0 : ((names ∩ ev_params).card = 0 ↔ (∀ p ∈ ev_params, p ∉ names)) :=
    card_inter_eq_zero
  unfold selectMode
  rw [if_neg (not_not_intro hs)]
  by_cases c1 : (names ∩ tw_params).card = tw_params.card ∧ (names ∩ ev_params).card = 0
  · rw [if_pos c1]
    refine ⟨⟨fun _ => ⟨(htw2.mp c1.1).1, (htw2.mp c1.1).2, hev0.mp c1.2⟩, fun _ => rfl⟩,
      ⟨fun h => absurd (Except.ok.inj h) (by decide), fun hr => ?_⟩,
      fun hn1 _ => absurd ⟨(htw2.mp c1.1).1, (htw2.mp c1.1).2, hev0.mp c1.2⟩ hn1⟩
    have h5 := hev5.mpr hr.1
    rw [c1.2] at h5
    exact absurd h5.symm (by decide)
  · rw [if_neg c1]
    by_cases c2 : (names ∩ ev_params).card = ev_params.card ∧ (names ∩ tw_params).card = 0
    · rw [if_pos c2]
      refine ⟨⟨fun h => absurd (Except.ok.inj h) (by decide), fun hr => ?_⟩,
        ⟨fun _ => ⟨hev5.mp c2.1, (htw0.mp c2.2).1, (htw0.mp c2.2).2⟩, fun _ => rfl⟩,
        fun _ hn2 => absurd ⟨hev5.mp c2.1, (htw0.mp c2.2).1, (htw0.mp c2.2).2⟩ hn2⟩
      have h2 := htw2.mpr ⟨hr.1, hr.2.1⟩
      rw [c2.2] at h2
      exact absurd h2.symm (by decide)
    · rw [if_neg c2]
      refine ⟨⟨fun h => absurd h (by simp), fun hr => ?_⟩,
        ⟨fun h => absurd h (by simp), fun hr => ?_⟩,
        fun _ _ => rfl⟩
      · exact absurd ⟨htw2.mpr ⟨hr.1, hr.2.1⟩, hev0.mpr hr.2.2⟩ c1
      · exact absurd ⟨hev5.mpr hr.1, htw0.mpr ⟨hr.2.1, hr.2.2⟩⟩ c2

theorem C5_dispatcher_witness :
    selectMode {"streams", "start", "end"} = .ok Mode.tw :=
  ((C5_dispatcher {"streams", "start", "end"} (by decide)).1).mpr (by decide)

end WebDC3
